import Mathlib

/-!
# devmem2: read/write a location of physical memory through one mapped page

A shallow embedding of `devmem2.c`.

Machine integers.  The program is modelled for an LP64 target: `unsigned long`,
`size_t`, `off_t` and pointers are 64 bits wide, `int` is 32 bits wide.
Values of type `int` are `Int`.  Values of type `unsigned long`, and the value
of the (signed) `off_t` global `address_flag`, are kept as their 64-bit
pattern, a `Nat` below `2 ^ 64`; every use of `address_flag` in the source
except `+=` first converts it to `unsigned long`, and `+=` is addition modulo
`2 ^ 64` on the pattern.
-/

namespace Devmem2

/-! ## Constants and integer conversions -/

/-- The macro `MAP_SIZE` (`4096UL`). -/
def MAP_SIZE : Nat := 4096

/-- The macro `MAP_MASK` (`MAP_SIZE - 1`). -/
def MAP_MASK : Nat := MAP_SIZE - 1

/-- Number of values of an `unsigned long`. -/
def ULONG_RANGE : Nat := 2 ^ 64

/-- Conversion of a signed integer to `unsigned long` (reduction modulo `2 ^ 64`). -/
def toULong (n : Int) : Nat := (n % (ULONG_RANGE : Int)).toNat

/-- Bitwise complement `~x` of an `unsigned long`. -/
def ulongNot (x : Nat) : Nat := ULONG_RANGE - 1 - x

/-- The page base handed to `mmap`: `address_flag & ~MAP_MASK`. -/
def physical_base (address_flag : Nat) : Nat := address_flag &&& ulongNot MAP_MASK

/-! ## Build options and globals -/

/-- What is fixed when the program is built: whether `FORCE_STRICT_ALIGNMENT` is defined,
and the byte order of the host. -/
structure Platform where
  strict_alignment : Bool
  big_endian : Bool
deriving DecidableEq

/-- The global variables of the program. -/
structure Flags where
  read_flag : Bool
  count_flag : Int
  size_flag : Int
  address_flag : Nat
  write_flag : Bool
  write_value : Nat
  verbose_flag : Bool
deriving DecidableEq

/-- The globals as initialised at program start: read one element of `sizeof(uint32_t)` bytes. -/
def initial_flags : Flags :=
  { read_flag := true, count_flag := 1, size_flag := 4, address_flag := 0,
    write_flag := false, write_value := 0, verbose_flag := false }

/-- The function `fixup_addr`: with `FORCE_STRICT_ALIGNMENT` the pointer is masked with
`~(size - 1)` (in `size_t` arithmetic), otherwise it is returned unchanged. -/
def fixup_addr (P : Platform) (addr : Nat) (size : Nat) : Nat :=
  if P.strict_alignment then addr &&& ulongNot ((size + ULONG_RANGE - 1) % ULONG_RANGE)
  else addr

/-! ## Memory -/

/-- The bytes of the address space of the process, by virtual address. The mapped window
is the range `[map_base, map_base + MAP_SIZE)`. -/
abbrev Memory := Nat → Fin 256

/-- The low byte of a number. -/
def byteOf (x : Nat) : Fin 256 := ⟨x % 256, Nat.mod_lt x (by decide)⟩

/-- Memory with the byte at `p` replaced. -/
def Memory.write (m : Memory) (p : Nat) (b : Fin 256) : Memory :=
  fun q => if q = p then b else m q

/-- Position, inside a `width`-byte object, of the byte of significance `256 ^ i`. -/
def bytePos (P : Platform) (width i : Nat) : Nat :=
  if P.big_endian then width - 1 - i else i

/-- Value of the `n` least significant bytes of the `width`-byte object at `p`. -/
def load_bytes (P : Platform) (m : Memory) (p width : Nat) : Nat → Nat
  | 0 => 0
  | n + 1 => load_bytes P m p width n + (m (p + bytePos P width n)).val * 256 ^ n

/-- The load `*((uintN_t *) p)` of a `width`-byte unsigned integer. -/
def load_uint (P : Platform) (m : Memory) (p width : Nat) : Nat :=
  load_bytes P m p width width

/-- Memory after the `n` least significant bytes of `v` are written to the `width`-byte
object at `p`. -/
def store_bytes (P : Platform) (p width v : Nat) : Nat → Memory → Memory
  | 0, m => m
  | n + 1, m => (store_bytes P p width v n m).write (p + bytePos P width n) (byteOf (v / 256 ^ n))

/-- The store `*((uintN_t *) p) = v` of a `width`-byte unsigned integer. -/
def store_uint (P : Platform) (m : Memory) (p width v : Nat) : Memory :=
  store_bytes P p width v width m

/-! ## The typed accessors -/

/-- One line `0x%08lx: 0x%0Nx` on standard output: the address, the value and the number `N`
of hexadecimal digits of the value. -/
structure Line where
  address : Nat
  value : Nat
  digits : Nat
deriving DecidableEq

/-- The arguments of the verbose line of an accessor: size, address and pointer. -/
structure VerboseAccess where
  size : Int
  address : Nat
  virt_addr : Nat
deriving DecidableEq

/-- What one call of `read_single` does: the pointer it dereferences, the verbose line if any,
the number of bytes it loads (`0` when no case of the switch is taken) and the line it prints. -/
structure ReadCall where
  virt_addr : Nat
  verbose : Option VerboseAccess
  width : Nat
  line : Option Line
deriving DecidableEq

/-- The function `read_single`. The switch is on the global `size_flag`. -/
def read_single (P : Platform) (g : Flags) (m : Memory) (map_base address : Nat) (size : Int) :
    ReadCall :=
  let virt_addr := fixup_addr P (map_base + (address &&& MAP_MASK)) (toULong size)
  let verbose : Option VerboseAccess :=
    if g.verbose_flag then some ⟨size, address, virt_addr⟩ else none
  if g.size_flag = 1 then
    let read_result := load_uint P m virt_addr 1
    ⟨virt_addr, verbose, 1, some ⟨address, read_result % 2 ^ 8, 2⟩⟩
  else if g.size_flag = 2 then
    let read_result := load_uint P m virt_addr 2
    ⟨virt_addr, verbose, 2, some ⟨address, read_result % 2 ^ 16, 4⟩⟩
  else if g.size_flag = 4 then
    let read_result := load_uint P m virt_addr 4
    ⟨virt_addr, verbose, 4, some ⟨address, read_result % 2 ^ 32, 8⟩⟩
  else if g.size_flag = 8 then
    let read_result := load_uint P m virt_addr 8
    ⟨virt_addr, verbose, 8, some ⟨address, read_result % 2 ^ 64, 16⟩⟩
  else
    ⟨virt_addr, verbose, 0, none⟩

/-- What one call of `write_single` does: the pointer it dereferences, the verbose line if
any, the number of bytes it stores (`0` when no case of the switch is taken) and the value
stored. -/
structure WriteCall where
  virt_addr : Nat
  verbose : Option VerboseAccess
  width : Nat
  value : Nat
deriving DecidableEq

/-- The function `write_single`: the call record and the memory after the call. The switch
is on the parameter `size`. -/
def write_single (P : Platform) (g : Flags) (m : Memory) (map_base address : Nat) (size : Int)
    (write_data : Nat) : WriteCall × Memory :=
  let virt_addr := fixup_addr P (map_base + (address &&& MAP_MASK)) (toULong size)
  let verbose : Option VerboseAccess :=
    if g.verbose_flag then some ⟨size, address, virt_addr⟩ else none
  if size = 1 then
    (⟨virt_addr, verbose, 1, write_data % 2 ^ 8⟩, store_uint P m virt_addr 1 (write_data % 2 ^ 8))
  else if size = 2 then
    (⟨virt_addr, verbose, 2, write_data % 2 ^ 16⟩,
      store_uint P m virt_addr 2 (write_data % 2 ^ 16))
  else if size = 4 then
    (⟨virt_addr, verbose, 4, write_data % 2 ^ 32⟩,
      store_uint P m virt_addr 4 (write_data % 2 ^ 32))
  else if size = 8 then
    (⟨virt_addr, verbose, 8, write_data % 2 ^ 64⟩,
      store_uint P m virt_addr 8 (write_data % 2 ^ 64))
  else
    (⟨virt_addr, verbose, 0, write_data⟩, m)

/-- A read touches only bytes of the window mapped at `map_base`. -/
def ReadCall.inside_window (map_base : Nat) (r : ReadCall) : Prop :=
  map_base ≤ r.virt_addr ∧ r.virt_addr + r.width ≤ map_base + MAP_SIZE

instance (map_base : Nat) (r : ReadCall) : Decidable (r.inside_window map_base) := by
  unfold ReadCall.inside_window
  exact inferInstance

/-! ## Observable behaviour -/

/-- The messages written to standard error. -/
inductive Message
  | wrong_length
  | size_unparsable
  | invalid_size (size_flag : Int)
  | unknown_option
  | no_address
  | address_unparsable (address_flag : Nat)
  | unable_to_open
  | multiple_writes
  | mmap_failed
  | border_reached (remaining : Int)
  | munmap_failed
deriving DecidableEq

/-- The observable steps of a run, in order. -/
inductive Event
  | stderr (msg : Message)
  | stdout_flags (g : Flags)
  | open_dev (ok : Bool)
  | mmap (offset : Nat) (result : Option Nat)
  | stdout_map_base (map_base : Nat)
  | read (r : ReadCall)
  | write (w : WriteCall)
  | munmap (ok : Bool)
  | close
deriving DecidableEq

/-- The event is a system call on the device or its mapping, or an access through the
mapping. -/
def Event.device_access : Event → Bool
  | .open_dev _ => true
  | .mmap _ _ => true
  | .read _ => true
  | .write _ => true
  | .munmap _ => true
  | .close => true
  | _ => false

/-- The event is a mapping attempt or an access through the mapping. -/
def Event.maps_or_accesses : Event → Bool
  | .mmap _ _ => true
  | .read _ => true
  | .write _ => true
  | _ => false

/-- How the process ends: `exit(status)` (or `return status` from `main`), or `abort()`,
which ends the process by the signal `SIGABRT` and not by an exit status. -/
inductive Termination
  | exited (status : Int)
  | aborted
deriving DecidableEq

/-- A complete run: the events and the way the process ends. -/
structure Outcome where
  events : List Event
  status : Termination
deriving DecidableEq

/-! ## Command line -/

/-- One result of `getopt(argc, argv, "w:s:c:v")`, with its argument as the conversion
function of the source reads it: `strtoul` for `-w`, `sscanf("%d")` for `-c` and `-s`
(`none` when `sscanf` does not return `1`). `unknown` is the result `?`, `other` any other
character. -/
inductive Opt
  | w (value : Nat)
  | c (scanned : Option Int)
  | s (scanned : Option Int)
  | v
  | unknown
  | other
deriving DecidableEq

/-- The command line as `parse_command_line` sees it: the successive results of `getopt`
and `strtoul(argv[optind])`, `none` when `optind == argc`. -/
structure CommandLine where
  opts : List Opt
  address : Option Nat
deriving DecidableEq

/-- The sizes accepted for `-s`: the comparisons with `sizeof(uintN_t)` are made in
`unsigned long`. -/
def valid_size (size_flag : Int) : Bool :=
  !(toULong size_flag != 1 && toULong size_flag != 2 && toULong size_flag != 4 &&
    toULong size_flag != 8)

/-- One case of the switch in `parse_command_line`: the new globals, or the message (if
any) printed before `abort()`. -/
def parse_option (g : Flags) : Opt → Except (List Event) Flags
  | .w value => .ok { g with read_flag := false, write_flag := true, write_value := value }
  | .c none => .error [.stderr .wrong_length]
  | .c (some n) => .ok { g with count_flag := n }
  | .s none => .error [.stderr .size_unparsable]
  | .s (some n) =>
    if valid_size n then .ok { g with size_flag := n }
    else .error [.stderr (.invalid_size n)]
  | .v => .ok { g with verbose_flag := true }
  | .unknown => .error [.stderr .unknown_option]
  | .other => .error []

/-- The `getopt` loop of `parse_command_line`. -/
def parse_options (g : Flags) : List Opt → Except (List Event) Flags
  | [] => .ok g
  | o :: os =>
    match parse_option g o with
    | .error evs => .error evs
    | .ok g1 => parse_options g1 os

/-- The function `parse_command_line`: the events, and the globals when it returns; `none`
when it ends in `abort()`. -/
def parse_command_line (g : Flags) (cl : CommandLine) : List Event × Option Flags :=
  match parse_options g cl.opts with
  | .error evs => (evs, none)
  | .ok g1 =>
    match cl.address with
    | none => ([.stderr .no_address], none)
    | some a =>
      let g2 := { g1 with address_flag := a }
      if g2.address_flag = 0 then ([.stderr (.address_unparsable g2.address_flag)], none)
      else if g2.verbose_flag then ([.stdout_flags g2], some g2)
      else ([], some g2)

/-! ## The program -/

/-- The results of the system calls of a run and the contents of memory. -/
structure Env where
  open_ok : Bool
  mmap_result : Option Nat
  munmap_ok : Bool
  mem : Memory

/-- The outcome of the read loop: the calls of `read_single`, in order, and the number
named by the border warning, if it is printed. -/
structure LoopResult where
  reads : List ReadCall
  warning : Option Int
deriving DecidableEq

/-- The loop `while (count_flag > 0)` of `main`. The first argument is the number of
iterations the test `count_flag > 0` still allows: the value of `count_flag` when it is
positive, and 0 otherwise; `count_flag--` takes it from `count + 1` to `count`. -/
def read_loop (P : Platform) (m : Memory) (map_base : Nat) : Nat → Flags → LoopResult
  | 0, _ => ⟨[], none⟩
  | count + 1, g =>
    let offset_in_page := g.address_flag &&& MAP_MASK
    let r := read_single P g m map_base g.address_flag g.size_flag
    let g1 := { g with count_flag := (count : Int) }
    if toULong ((offset_in_page : Int) + g1.size_flag) ≥ MAP_SIZE then
      ⟨[r], some g1.count_flag⟩
    else
      let g2 := { g1 with
        address_flag := (g1.address_flag + toULong g1.size_flag) % ULONG_RANGE }
      let rest := read_loop P m map_base count g2
      ⟨r :: rest.reads, rest.warning⟩

/-- The events of the read loop. -/
def LoopResult.events (l : LoopResult) : List Event :=
  l.reads.map Event.read ++
    (match l.warning with
     | some n => [Event.stderr (.border_reached n)]
     | none => [])

/-- The accesses of `main`: the read loop in read mode, one `write_single` in write mode. -/
def access_events (P : Platform) (m : Memory) (map_base : Nat) (g : Flags) : List Event :=
  if g.read_flag then (read_loop P m map_base g.count_flag.toNat g).events
  else if g.write_flag then
    [.write (write_single P g m map_base g.address_flag g.size_flag g.write_value).1]
  else []

/-- The function `main` after `parse_command_line` has returned with globals `g`. -/
def main_after_parse (P : Platform) (env : Env) (g : Flags) : Outcome :=
  if !env.open_ok then
    ⟨[.open_dev false, .stderr .unable_to_open], .exited 1⟩
  else if g.write_flag && decide (g.count_flag > 1) then
    ⟨[.open_dev true, .stderr .multiple_writes], .exited 1⟩
  else
    match env.mmap_result with
    | none =>
      ⟨[.open_dev true, .mmap (physical_base g.address_flag) none, .stderr .mmap_failed],
        .exited 1⟩
    | some map_base =>
      let mapped : List Event :=
        [.open_dev true, .mmap (physical_base g.address_flag) (some map_base)] ++
          (if g.verbose_flag then [.stdout_map_base map_base] else [])
      let accesses := access_events P env.mem map_base g
      if !env.munmap_ok then
        ⟨mapped ++ accesses ++ [.munmap false, .stderr .munmap_failed], .exited 1⟩
      else
        ⟨mapped ++ accesses ++ [.munmap true, .close], .exited 0⟩

/-- The function `main`. -/
def main (P : Platform) (env : Env) (cl : CommandLine) : Outcome :=
  match parse_command_line initial_flags cl with
  | (evs, none) => ⟨evs, .aborted⟩
  | (evs, some g) =>
    let r := main_after_parse P env g
    ⟨evs ++ r.events, r.status⟩

/-- The calls of `read_single` among the events of a run, in order. -/
def read_calls (evs : List Event) : List ReadCall :=
  evs.filterMap (fun e => match e with
    | .read r => some r
    | _ => none)

/-- The numbers named by the border warnings among the events of a run, in order. -/
def border_warnings (evs : List Event) : List Int :=
  evs.filterMap (fun e => match e with
    | .stderr (.border_reached n) => some n
    | _ => none)

/-- Closed form, used in the statements below, of the number of elements the read loop
reads: the count, capped by the least `n` with `offset + n * s ≥ 4096`, which is
`(4096 - offset) / s` rounded up. -/
def reads_expected (count offset s : Nat) : Nat := min count ((4096 - offset + (s - 1)) / s)

/-! ## Bit-level facts -/

/-- Clearing the low `k` bits of a 64-bit value rounds it down to a multiple of `2 ^ k`. -/
theorem and_clear_low (k x : Nat) (hk : k ≤ 64) (hx : x < 2 ^ 64) :
    x &&& (2 ^ k * (2 ^ (64 - k) - 1)) = 2 ^ k * (x / 2 ^ k) := by
  apply Nat.eq_of_testBit_eq
  intro i
  rw [Nat.testBit_and, Nat.testBit_mul_pow_two, Nat.testBit_mul_pow_two,
    Nat.testBit_two_pow_sub_one, ← Nat.shiftRight_eq_div_pow, Nat.testBit_shiftRight]
  by_cases hik : k ≤ i
  · have e : k + (i - k) = i := by omega
    by_cases h64 : i < 64
    · have : i - k < 64 - k := by omega
      simp [hik, this, e]
    · have hlt : x < 2 ^ i :=
        lt_of_lt_of_le hx (Nat.pow_le_pow_right (by decide) (by omega))
      have hb : x.testBit i = false := Nat.testBit_lt_two_pow hlt
      simp [hb, e]
  · simp [hik]

/-- The mask `& MAP_MASK` is the remainder modulo the page size. -/
theorem and_MAP_MASK (a : Nat) : a &&& MAP_MASK = a % 4096 := by
  have h := Nat.and_pow_two_sub_one_eq_mod a 12
  simpa [MAP_MASK, MAP_SIZE] using h

/-- The page base is the address rounded down to a multiple of the page size. -/
theorem physical_base_eq (a : Nat) (ha : a < 2 ^ 64) :
    physical_base a = 4096 * (a / 4096) := by
  have h := and_clear_low 12 a (by decide) ha
  have e : ulongNot MAP_MASK = 2 ^ 12 * (2 ^ (64 - 12) - 1) := by decide
  rw [physical_base, e, h]
  norm_num

/-! ## The read loop -/

/-- Converting a natural number to `unsigned long` reduces it modulo `2 ^ 64`. -/
theorem toULong_natCast (n : Nat) : toULong (n : Int) = n % 2 ^ 64 := by
  unfold toULong ULONG_RANGE
  norm_num
  omega

/-- The result of `read_single` depends on the globals only through `size_flag` and
`verbose_flag`. -/
theorem read_single_flags (P : Platform) (g g1 : Flags) (m : Memory) (b a : Nat) (sz : Int)
    (h1 : g1.size_flag = g.size_flag) (h2 : g1.verbose_flag = g.verbose_flag) :
    read_single P g1 m b a sz = read_single P g m b a sz := by
  simp [read_single, h1, h2]

/-- One iteration of the read loop, for an element size of at most 8 bytes. -/
theorem read_loop_succ (P : Platform) (m : Memory) (b c : Nat) (g : Flags) (s : Nat)
    (hg : g.size_flag = (s : Int)) (hs : s ≤ 8) :
    read_loop P m b (c + 1) g =
      if 4096 ≤ g.address_flag % 4096 + s then
        ⟨[read_single P g m b g.address_flag g.size_flag], some (c : Int)⟩
      else
        ⟨read_single P g m b g.address_flag g.size_flag ::
            (read_loop P m b c
              { g with
                count_flag := (c : Int),
                address_flag := (g.address_flag + s) % 2 ^ 64 }).reads,
          (read_loop P m b c
              { g with
                count_flag := (c : Int),
                address_flag := (g.address_flag + s) % 2 ^ 64 }).warning⟩ := by
  have e1 : toULong (((g.address_flag % 4096 : Nat) : Int) + (s : Int))
      = g.address_flag % 4096 + s := by
    rw [← Int.natCast_add, toULong_natCast]
    omega
  have e2 : toULong (s : Int) = s := by
    rw [toULong_natCast]
    omega
  simp only [read_loop, and_MAP_MASK, hg, e1, e2, MAP_SIZE, ULONG_RANGE, ge_iff_le]

/-- Closed form of the read loop for the element sizes 1, 2, 4 and 8. -/
theorem read_loop_spec (P : Platform) (m : Memory) (b : Nat) (s : Nat)
    (hs : s = 1 ∨ s = 2 ∨ s = 4 ∨ s = 8) (c : Nat) (g : Flags)
    (hg : g.size_flag = (s : Int)) (ha : g.address_flag < 2 ^ 64) :
    read_loop P m b c g =
      ⟨(List.range (reads_expected c (g.address_flag % 4096) s)).map
          (fun i => read_single P g m b (g.address_flag + i * s) g.size_flag),
        if 4096 ≤ g.address_flag % 4096 + reads_expected c (g.address_flag % 4096) s * s then
          some ((c : Int) - (reads_expected c (g.address_flag % 4096) s : Int))
        else none⟩ := by
  induction c generalizing g with
  | zero =>
    have hlt : ¬ 4096 ≤ g.address_flag % 4096 + reads_expected 0 (g.address_flag % 4096) s * s := by
      simp only [reads_expected, Nat.zero_min, Nat.zero_mul, Nat.add_zero]
      omega
    rw [if_neg hlt]
    simp [read_loop, reads_expected]
  | succ c ih =>
    rw [read_loop_succ P m b c g s hg (by omega)]
    by_cases hb : 4096 ≤ g.address_flag % 4096 + s
    · have hn : reads_expected (c + 1) (g.address_flag % 4096) s = 1 := by
        unfold reads_expected
        rcases hs with rfl | rfl | rfl | rfl <;> omega
      simp [hb, hn, List.range_succ]
    · have hlt : g.address_flag + s < 2 ^ 64 := by omega
      have hmod : (g.address_flag + s) % 2 ^ 64 = g.address_flag + s := Nat.mod_eq_of_lt hlt
      have hoff : (g.address_flag + s) % 4096 = g.address_flag % 4096 + s := by omega
      have hn : reads_expected (c + 1) (g.address_flag % 4096) s
          = reads_expected c (g.address_flag % 4096 + s) s + 1 := by
        unfold reads_expected
        rcases hs with rfl | rfl | rfl | rfl <;> omega
      have ih2 := ih
        { g with
          count_flag := (c : Int),
          address_flag := (g.address_flag + s) % 2 ^ 64 } hg (Nat.mod_lt _ (by decide))
      dsimp only at ih2
      rw [if_neg hb, ih2]
      simp only [hmod, hoff, hn, List.range_succ_eq_map, List.map_cons, List.map_map]
      have hl : ∀ i : Nat, g.address_flag + s + i * s = g.address_flag + (i + 1) * s := by
        intro i
        ring
      refine congrArg₂ LoopResult.mk ?_ ?_
      · refine congrArg₂ List.cons ?_ ?_
        · simp
        · apply List.map_congr_left
          intro i _
          simp only [Function.comp, hl]
          exact read_single_flags P g _ m b _ _ rfl rfl
      · have e : g.address_flag % 4096 + s + reads_expected c (g.address_flag % 4096 + s) s * s
            = g.address_flag % 4096 + (reads_expected c (g.address_flag % 4096 + s) s + 1) * s := by
          ring
        rw [e]
        split <;> simp

/-- Number of calls of `read_single` made by the read loop. -/
theorem read_loop_length (P : Platform) (m : Memory) (b : Nat) (s : Nat)
    (hs : s = 1 ∨ s = 2 ∨ s = 4 ∨ s = 8) (c : Nat) (g : Flags)
    (hg : g.size_flag = (s : Int)) (ha : g.address_flag < 2 ^ 64) :
    (read_loop P m b c g).reads.length = reads_expected c (g.address_flag % 4096) s := by
  rw [read_loop_spec P m b s hs c g hg ha]
  simp

/-- When the address is a multiple of the element size, the read loop reads
`min count ((4096 - offset) / size)` elements. -/
theorem read_loop_length_aligned (P : Platform) (m : Memory) (b : Nat) (s : Nat)
    (hs : s = 1 ∨ s = 2 ∨ s = 4 ∨ s = 8) (c : Nat) (g : Flags)
    (hg : g.size_flag = (s : Int)) (ha : g.address_flag < 2 ^ 64)
    (hal : g.address_flag % s = 0) :
    (read_loop P m b c g).reads.length = min c ((4096 - g.address_flag % 4096) / s) := by
  rw [read_loop_length P m b s hs c g hg ha]
  unfold reads_expected
  rcases hs with rfl | rfl | rfl | rfl <;> omega

/-- Without `FORCE_STRICT_ALIGNMENT`, when the address is a multiple of the element size,
every load of the read loop stays inside the mapped window. -/
theorem reads_inside_window_aligned (P : Platform) (hP : P.strict_alignment = false)
    (m : Memory) (b : Nat) (s : Nat) (hs : s = 1 ∨ s = 2 ∨ s = 4 ∨ s = 8) (c : Nat)
    (g : Flags) (hg : g.size_flag = (s : Int)) (ha : g.address_flag < 2 ^ 64)
    (hal : g.address_flag % s = 0) :
    ∀ r ∈ (read_loop P m b c g).reads, r.inside_window b := by
  intro r hr
  rw [read_loop_spec P m b s hs c g hg ha] at hr
  simp only [List.mem_map, List.mem_range] at hr
  obtain ⟨i, hi, rfl⟩ := hr
  have hi2 : i < (4096 - g.address_flag % 4096 + (s - 1)) / s :=
    lt_of_lt_of_le hi (Nat.min_le_right _ _)
  unfold ReadCall.inside_window
  rcases hs with rfl | rfl | rfl | rfl <;>
    simp [read_single, fixup_addr, hP, hg, and_MAP_MASK, MAP_SIZE] <;> omega

/-! ## The accessors -/

/-- The pointer dereferenced by `read_single`. -/
theorem read_single_virt_addr (P : Platform) (g : Flags) (m : Memory) (b a : Nat) (sz : Int) :
    (read_single P g m b a sz).virt_addr = fixup_addr P (b + a % 4096) (toULong sz) := by
  simp only [read_single, and_MAP_MASK]
  split_ifs <;> rfl

/-- The number of bytes loaded by `read_single` is the global `size_flag`, when that is
1, 2, 4 or 8. -/
theorem read_single_width (P : Platform) (g : Flags) (m : Memory) (b a : Nat) (sz : Int)
    (s : Nat) (hs : s = 1 ∨ s = 2 ∨ s = 4 ∨ s = 8) (hg : g.size_flag = (s : Int)) :
    (read_single P g m b a sz).width = s := by
  rcases hs with rfl | rfl | rfl | rfl <;> simp [read_single, hg]

/-- With `FORCE_STRICT_ALIGNMENT`, `fixup_addr` rounds a pointer down to a multiple of the
size, for the sizes 1, 2, 4 and 8. -/
theorem fixup_addr_strict (P : Platform) (hP : P.strict_alignment = true) (x s : Nat)
    (hs : s = 1 ∨ s = 2 ∨ s = 4 ∨ s = 8) (hx : x < 2 ^ 64) :
    fixup_addr P x (toULong (s : Int)) = s * (x / s) := by
  rw [toULong_natCast]
  simp only [fixup_addr, hP, if_true]
  rcases hs with rfl | rfl | rfl | rfl
  · have h := and_clear_low 0 x (by decide) hx
    have e : ulongNot ((1 % 2 ^ 64 + ULONG_RANGE - 1) % ULONG_RANGE)
        = 2 ^ 0 * (2 ^ (64 - 0) - 1) := by decide
    rw [e, h]
    norm_num
  · have h := and_clear_low 1 x (by decide) hx
    have e : ulongNot ((2 % 2 ^ 64 + ULONG_RANGE - 1) % ULONG_RANGE)
        = 2 ^ 1 * (2 ^ (64 - 1) - 1) := by decide
    rw [e, h]
    norm_num
  · have h := and_clear_low 2 x (by decide) hx
    have e : ulongNot ((4 % 2 ^ 64 + ULONG_RANGE - 1) % ULONG_RANGE)
        = 2 ^ 2 * (2 ^ (64 - 2) - 1) := by decide
    rw [e, h]
    norm_num
  · have h := and_clear_low 3 x (by decide) hx
    have e : ulongNot ((8 % 2 ^ 64 + ULONG_RANGE - 1) % ULONG_RANGE)
        = 2 ^ 3 * (2 ^ (64 - 3) - 1) := by decide
    rw [e, h]
    norm_num

/-- With `FORCE_STRICT_ALIGNMENT` and a page-aligned mapping, every load of the read loop
stays inside the mapped window, whatever the alignment of the address. -/
theorem reads_inside_window_strict (P : Platform) (hP : P.strict_alignment = true)
    (m : Memory) (b : Nat) (hb : b % 4096 = 0) (hb2 : b + 4096 ≤ 2 ^ 64) (s : Nat)
    (hs : s = 1 ∨ s = 2 ∨ s = 4 ∨ s = 8) (c : Nat) (g : Flags) (hg : g.size_flag = (s : Int))
    (ha : g.address_flag < 2 ^ 64) :
    ∀ r ∈ (read_loop P m b c g).reads, r.inside_window b := by
  intro r hr
  rw [read_loop_spec P m b s hs c g hg ha] at hr
  simp only [List.mem_map, List.mem_range] at hr
  obtain ⟨i, _, rfl⟩ := hr
  unfold ReadCall.inside_window
  have hx : b + (g.address_flag + i * s) % 4096 < 2 ^ 64 := by omega
  rw [read_single_virt_addr, read_single_width P g m b _ _ s hs hg, hg,
    fixup_addr_strict P hP _ s hs hx]
  unfold MAP_SIZE
  rcases hs with rfl | rfl | rfl | rfl <;> omega

/-- A store of a 1, 2, 4 or 8 byte unsigned integer followed by a load of the same width at
the same pointer gives back the value reduced modulo `256 ^ width`, in either byte order. -/
theorem load_store_uint (P : Platform) (m : Memory) (p w v : Nat)
    (hw : w = 1 ∨ w = 2 ∨ w = 4 ∨ w = 8) :
    load_uint P (store_uint P m p w v) p w = v % 256 ^ w := by
  rcases hw with rfl | rfl | rfl | rfl <;> cases hbe : P.big_endian <;>
    simp [load_uint, store_uint, load_bytes, store_bytes, Memory.write, bytePos, byteOf, hbe] <;>
    omega

/-! ## Page base -/

/-- C3: for every 64-bit address `a`, the page base `a & ~MAP_MASK` handed to `mmap`
satisfies `physical_base a ≤ a < physical_base a + MAP_SIZE` and is a multiple of
`MAP_SIZE`. -/
theorem physical_base_bounds (a : Nat) (ha : a < 2 ^ 64) :
    physical_base a ≤ a ∧ a < physical_base a + MAP_SIZE ∧ physical_base a % MAP_SIZE = 0 := by
  rw [physical_base_eq a ha]
  unfold MAP_SIZE
  omega

/-- Worked instance at the address `0x12345678`. -/
theorem physical_base_bounds_witness :
    (0x12345678 : Nat) < 2 ^ 64 ∧
      (physical_base 0x12345678 ≤ 0x12345678 ∧
        0x12345678 < physical_base 0x12345678 + MAP_SIZE ∧
        physical_base 0x12345678 % MAP_SIZE = 0) :=
  ⟨by decide, physical_base_bounds 0x12345678 (by decide)⟩

/-! ## Reads at the window edge -/

/-- C1: at address `0xFFE` with element size 4 and count 4, the read loop calls
`read_single` once, while `min count ((4096 - a % 4096) / s)` is 0. -/
theorem read_count_at_unaligned_edge (P : Platform) (m : Memory) (b : Nat) :
    (read_loop P m b 4
        { initial_flags with address_flag := 0xFFE, size_flag := 4, count_flag := 4 }).reads.length
      = 1 ∧ min 4 ((4096 - 0xFFE % 4096) / 4) = 0 := by
  constructor
  · rw [read_loop_length P m b 4 (by decide) 4 _ rfl (by decide)]
    decide
  · decide

/-- C2: without `FORCE_STRICT_ALIGNMENT`, at address `0xFFE` with element size 4 and
count 4, the load of the read loop is at window offset `0xFFE` and is 4 bytes wide, so it
ends 2 bytes past the end of the mapped window. -/
theorem read_past_window_at_unaligned_edge (big_endian : Bool) (m : Memory) (b : Nat) :
    (read_loop ⟨false, big_endian⟩ m b 4
        { initial_flags with address_flag := 0xFFE, size_flag := 4, count_flag := 4 }).reads.map
        (fun r => (r.virt_addr, r.width)) = [(b + 0xFFE, 4)] ∧
      ¬ ∀ r ∈ (read_loop ⟨false, big_endian⟩ m b 4
          { initial_flags with address_flag := 0xFFE, size_flag := 4, count_flag := 4 }).reads,
        r.inside_window b := by
  have h := read_loop_spec ⟨false, big_endian⟩ m b 4 (by decide) 4
    { initial_flags with address_flag := 0xFFE, size_flag := 4, count_flag := 4 } rfl
    (by decide)
  have hn : reads_expected 4 (0xFFE % 4096) 4 = 1 := by decide
  dsimp only at h
  rw [h, hn]
  simp [read_single, fixup_addr, and_MAP_MASK, ReadCall.inside_window, MAP_SIZE,
    List.range_succ]

/-! ## Round trip -/

/-- C4: for every element size `s` in 1, 2, 4, 8 that is the configured size, every address
whose `s`-byte access fits in the window, every value `v` and every memory content,
`write_single` followed by `read_single` at the same address prints `v mod 2 ^ (8 * s)`,
with `2 * s` hexadecimal digits. -/
theorem write_then_read (P : Platform) (g : Flags) (m : Memory) (b a s v : Nat)
    (hs : s = 1 ∨ s = 2 ∨ s = 4 ∨ s = 8) (hg : g.size_flag = (s : Int))
    (hfit : (a &&& MAP_MASK) + s ≤ MAP_SIZE) :
    (read_single P g (write_single P g m b a (s : Int) v).2 b a (s : Int)).line
      = some ⟨a, v % 2 ^ (8 * s), 2 * s⟩ := by
  rcases hs with rfl | rfl | rfl | rfl <;>
    simp [read_single, write_single, hg, load_store_uint]

/-- Worked instance: the value `0x1122334455667788` written with size 4 at
address `0x10000FFC`, the last element of its page. -/
theorem write_then_read_witness :
    ((0x10000FFC &&& MAP_MASK) + 4 ≤ MAP_SIZE) ∧
      (read_single ⟨false, false⟩ initial_flags
          (write_single ⟨false, false⟩ initial_flags (fun _ => 0) 0x7000 0x10000FFC
            ((4 : Nat) : Int) 0x1122334455667788).2 0x7000 0x10000FFC ((4 : Nat) : Int)).line
        = some ⟨0x10000FFC, 0x1122334455667788 % 2 ^ (8 * 4), 2 * 4⟩ :=
  ⟨by decide,
    write_then_read ⟨false, false⟩ initial_flags (fun _ => 0) 0x7000 0x10000FFC 4
      0x1122334455667788 (by decide) rfl (by decide)⟩

/-! ## Width of a read -/

/-- C10: with the global `size_flag` at its default 4, the call of `read_single` with size
argument 1 loads 4 bytes and prints 8 hexadecimal digits; `write_single` with size
argument 1 stores 1 byte. -/
theorem read_single_width_from_global (P : Platform) (m : Memory) (b a v : Nat) :
    (read_single P initial_flags m b a 1).width = 4 ∧
      (read_single P initial_flags m b a 1).line.map Line.digits = some 8 ∧
      (write_single P initial_flags m b a 1 v).1.width = 1 := by
  simp [read_single, write_single, initial_flags]

/-! ## The program as a whole -/

/-- The events of the accesses of `main` are reads, the border warning and writes. -/
theorem access_events_kind (P : Platform) (m : Memory) (b : Nat) (g : Flags) :
    ∀ e ∈ access_events P m b g,
      (∃ r, e = .read r) ∨ (∃ n, e = .stderr (.border_reached n)) ∨ (∃ w, e = .write w) := by
  intro e he
  unfold access_events at he
  split_ifs at he
  · unfold LoopResult.events at he
    rcases List.mem_append.1 he with h | h
    · obtain ⟨r, _, rfl⟩ := List.mem_map.1 h
      exact Or.inl ⟨r, rfl⟩
    · split at h
      · rw [List.mem_singleton] at h
        exact Or.inr (Or.inl ⟨_, h⟩)
      · simp at h
  · rw [List.mem_singleton] at he
    exact Or.inr (Or.inr ⟨_, he⟩)
  · simp at he

/-- The calls of `read_single` and the border warning of a read loop, read back from its
events. -/
theorem loop_events_observed (l : LoopResult) (pre post : List Event)
    (hpre : read_calls pre = [] ∧ border_warnings pre = [])
    (hpost : read_calls post = [] ∧ border_warnings post = []) :
    read_calls (pre ++ l.events ++ post) = l.reads ∧
      border_warnings (pre ++ l.events ++ post) = l.warning.toList := by
  have h1 : read_calls (l.reads.map Event.read) = l.reads := by
    unfold read_calls
    induction l.reads with
    | nil => rfl
    | cons r rs ih => simp [List.filterMap_cons, ih]
  have h2 : border_warnings (l.reads.map Event.read) = [] := by
    unfold border_warnings
    induction l.reads with
    | nil => rfl
    | cons r rs ih => simp [List.filterMap_cons, ih]
  have h3 : ∀ xs ys : List Event, read_calls (xs ++ ys) = read_calls xs ++ read_calls ys := by
    intro xs ys
    simp [read_calls, List.filterMap_append]
  have h4 : ∀ xs ys : List Event,
      border_warnings (xs ++ ys) = border_warnings xs ++ border_warnings ys := by
    intro xs ys
    simp [border_warnings, List.filterMap_append]
  unfold LoopResult.events
  rw [h3, h3, h3, h4, h4, h4, h1, h2, hpre.1, hpre.2, hpost.1, hpost.2]
  cases l.warning <;> simp [read_calls, border_warnings]

/-- A run in read mode in which `open`, `mmap` and `munmap` succeed: the events and the
exit status. -/
theorem main_after_parse_read (P : Platform) (env : Env) (g : Flags) (b : Nat)
    (ho : env.open_ok = true) (hm : env.mmap_result = some b) (hu : env.munmap_ok = true)
    (hr : g.read_flag = true) (hw : g.write_flag = false) :
    main_after_parse P env g =
      ⟨([.open_dev true, .mmap (physical_base g.address_flag) (some b)] ++
          (if g.verbose_flag then [.stdout_map_base b] else [])) ++
        (read_loop P env.mem b g.count_flag.toNat g).events ++ [.munmap true, .close],
        .exited 0⟩ := by
  simp [main_after_parse, access_events, ho, hm, hu, hr, hw]

/-! ## Rejection of multiple writes -/

/-- C5, as stated, fails: on the command line `-w 0x1 -c 2 0x1000`, with a device that
opens, the run ends with exit status 1 and its events are not all free of device access:
the device has been opened before the rejection. -/
theorem multiple_writes_after_open :
    (main ⟨false, false⟩ ⟨true, some 0x7000, true, fun _ => 0⟩
        ⟨[.w 1, .c (some 2)], some 0x1000⟩).status = .exited 1 ∧
      Event.open_dev true ∈ (main ⟨false, false⟩ ⟨true, some 0x7000, true, fun _ => 0⟩
        ⟨[.w 1, .c (some 2)], some 0x1000⟩).events ∧
      ¬ ∀ e ∈ (main ⟨false, false⟩ ⟨true, some 0x7000, true, fun _ => 0⟩
        ⟨[.w 1, .c (some 2)], some 0x1000⟩).events, e.device_access = false := by
  decide

/-- C5, amended: when the command line resolves to write mode with a count above 1, the run
ends with exit status 1 after `open` has been called and before anything else: the events
that follow the parse are the `open` call and one error message, so no mapping is attempted
and no load or store is performed. -/
theorem multiple_writes_rejected (P : Platform) (env : Env) (cl : CommandLine)
    (evs : List Event) (g : Flags) (hp : parse_command_line initial_flags cl = (evs, some g))
    (hw : g.write_flag = true) (hc : g.count_flag > 1) :
    (main P env cl).status = .exited 1 ∧
      (main P env cl).events = evs ++
        (if env.open_ok then [.open_dev true, .stderr .multiple_writes]
         else [.open_dev false, .stderr .unable_to_open]) ∧
      ∀ e ∈ (main_after_parse P env g).events, e.maps_or_accesses = false := by
  cases ho : env.open_ok <;>
    simp [main, hp, main_after_parse, ho, hw, hc, Event.maps_or_accesses]

/-- Worked instance on the command line `-w 0x1 -c 2 0x1000`. -/
theorem multiple_writes_rejected_witness :
    parse_command_line initial_flags ⟨[.w 1, .c (some 2)], some 0x1000⟩ =
        ([], some ⟨false, 2, 4, 0x1000, true, 1, false⟩) ∧
      ((main ⟨false, false⟩ ⟨true, some 0x7000, true, fun _ => 0⟩
          ⟨[.w 1, .c (some 2)], some 0x1000⟩).status = .exited 1 ∧
        (main ⟨false, false⟩ ⟨true, some 0x7000, true, fun _ => 0⟩
          ⟨[.w 1, .c (some 2)], some 0x1000⟩).events = [] ++
            (if true then [.open_dev true, .stderr .multiple_writes]
             else [.open_dev false, .stderr .unable_to_open]) ∧
        ∀ e ∈ (main_after_parse ⟨false, false⟩ ⟨true, some 0x7000, true, fun _ => 0⟩
          ⟨false, 2, 4, 0x1000, true, 1, false⟩).events, e.maps_or_accesses = false) :=
  ⟨by decide,
    multiple_writes_rejected ⟨false, false⟩ ⟨true, some 0x7000, true, fun _ => 0⟩
      ⟨[.w 1, .c (some 2)], some 0x1000⟩ [] ⟨false, 2, 4, 0x1000, true, 1, false⟩
      (by decide) rfl (by decide)⟩

/-! ## Invalid element size -/

/-- An `int` other than 1, 2, 4 and 8 is not a valid size. -/
theorem valid_size_false (n : Int) (hr : -2 ^ 31 ≤ n ∧ n < 2 ^ 31)
    (hn : n ≠ 1 ∧ n ≠ 2 ∧ n ≠ 4 ∧ n ≠ 8) : valid_size n = false := by
  have h : toULong n ≠ 1 ∧ toULong n ≠ 2 ∧ toULong n ≠ 4 ∧ toULong n ≠ 8 := by
    unfold toULong ULONG_RANGE
    norm_num
    omega
  simp [valid_size, h]

/-- The events of a failing option are messages, not device accesses. -/
theorem parse_option_error (g : Flags) (o : Opt) (evs : List Event)
    (h : parse_option g o = .error evs) : ∀ e ∈ evs, e.device_access = false := by
  cases o with
  | w value => simp [parse_option] at h
  | c scanned =>
    cases scanned with
    | none =>
      simp only [parse_option, Except.error.injEq] at h
      subst h
      simp [Event.device_access]
    | some n => simp [parse_option] at h
  | s scanned =>
    cases scanned with
    | none =>
      simp only [parse_option, Except.error.injEq] at h
      subst h
      simp [Event.device_access]
    | some n =>
      simp only [parse_option] at h
      split_ifs at h
      simp only [Except.error.injEq] at h
      subst h
      simp [Event.device_access]
  | v => simp [parse_option] at h
  | unknown =>
    simp only [parse_option, Except.error.injEq] at h
    subst h
    simp [Event.device_access]
  | other =>
    simp only [parse_option, Except.error.injEq] at h
    subst h
    simp

/-- An option list that holds `-s n` with `n` not a valid size makes the `getopt` loop end
in `abort()`, with no device access before. -/
theorem parse_options_invalid_size (n : Int) (hv : valid_size n = false) (opts : List Opt)
    (hmem : Opt.s (some n) ∈ opts) (g : Flags) :
    ∃ evs, parse_options g opts = .error evs ∧ ∀ e ∈ evs, e.device_access = false := by
  induction opts generalizing g with
  | nil => simp at hmem
  | cons o os ih =>
    unfold parse_options
    cases hpo : parse_option g o with
    | error evs => exact ⟨evs, rfl, parse_option_error g o evs hpo⟩
    | ok g1 =>
      rcases List.mem_cons.1 hmem with h | h
      · subst h
        simp [parse_option, hv] at hpo
      · exact ih h g1

/-- C6, as stated, fails: on the command line `-s 3 0x1000` the process does not end with
exit status 1; it ends in `abort()`. -/
theorem invalid_size_not_exit_one :
    (main ⟨false, false⟩ ⟨true, some 0x7000, true, fun _ => 0⟩
        ⟨[.s (some 3)], some 0x1000⟩).status ≠ .exited 1 ∧
      (main ⟨false, false⟩ ⟨true, some 0x7000, true, fun _ => 0⟩
        ⟨[.s (some 3)], some 0x1000⟩) = ⟨[.stderr (.invalid_size 3)], .aborted⟩ := by
  decide

/-- C6, amended: for every `int` value `n` given to `-s` that is not one of 1, 2, 4, 8, the
run ends in `abort()` (termination by `SIGABRT`, not an exit status), and none of its events
is a device access: the device is not opened. -/
theorem invalid_size_aborts (P : Platform) (env : Env) (cl : CommandLine) (n : Int)
    (hmem : Opt.s (some n) ∈ cl.opts) (hr : -2 ^ 31 ≤ n ∧ n < 2 ^ 31)
    (hn : n ≠ 1 ∧ n ≠ 2 ∧ n ≠ 4 ∧ n ≠ 8) :
    (main P env cl).status = .aborted ∧
      ∀ e ∈ (main P env cl).events, e.device_access = false := by
  obtain ⟨evs, h1, h2⟩ :=
    parse_options_invalid_size n (valid_size_false n hr hn) cl.opts hmem initial_flags
  simp only [main, parse_command_line, h1]
  exact ⟨trivial, h2⟩

/-- Worked instance on the command line `-v -s 3 0x1000`. -/
theorem invalid_size_aborts_witness :
    Opt.s (some 3) ∈ (⟨[.v, .s (some 3)], some 0x1000⟩ : CommandLine).opts ∧
      ((main ⟨false, false⟩ ⟨true, some 0x7000, true, fun _ => 0⟩
          ⟨[.v, .s (some 3)], some 0x1000⟩).status = .aborted ∧
        ∀ e ∈ (main ⟨false, false⟩ ⟨true, some 0x7000, true, fun _ => 0⟩
          ⟨[.v, .s (some 3)], some 0x1000⟩).events, e.device_access = false) :=
  ⟨by decide,
    invalid_size_aborts ⟨false, false⟩ ⟨true, some 0x7000, true, fun _ => 0⟩
      ⟨[.v, .s (some 3)], some 0x1000⟩ 3 (by decide) (by decide) (by decide)⟩

/-! ## The border warning -/

/-- C7, as stated, fails: at address `0xFFC` with the default size 4 and count 1, the one
requested element is read (all `count` elements were read) and the border warning is still
printed, naming 0 remaining items. -/
theorem border_warning_with_all_read :
    (read_calls (main ⟨false, false⟩ ⟨true, some 0x7000, true, fun _ => 0⟩
        ⟨[], some 0xFFC⟩).events).length = 1 ∧
      border_warnings (main ⟨false, false⟩ ⟨true, some 0x7000, true, fun _ => 0⟩
        ⟨[], some 0xFFC⟩).events = [0] ∧
      (main ⟨false, false⟩ ⟨true, some 0x7000, true, fun _ => 0⟩
        ⟨[], some 0xFFC⟩).status = .exited 0 := by
  decide

/-- C7, amended: in a read-mode run with size `s` in 1, 2, 4, 8 and count at least 1 in
which `open`, `mmap` and `munmap` succeed, with `n` the number of elements read: the exit
status is 0; the border warning is printed exactly when the last element read ends at or
past the end of the window (`a mod 4096 + n * s ≥ 4096`), whether or not `count` is
exhausted; the number it names is `count - n`; and it is printed whenever fewer than
`count` elements were read. -/
theorem border_warning_rule (P : Platform) (env : Env) (g : Flags) (b s : Nat)
    (ho : env.open_ok = true) (hm : env.mmap_result = some b) (hu : env.munmap_ok = true)
    (hr : g.read_flag = true) (hw : g.write_flag = false)
    (hs : s = 1 ∨ s = 2 ∨ s = 4 ∨ s = 8) (hg : g.size_flag = (s : Int))
    (ha : g.address_flag < 2 ^ 64) (hc : 1 ≤ g.count_flag) :
    (main_after_parse P env g).status = .exited 0 ∧
      border_warnings (main_after_parse P env g).events =
        (if 4096 ≤ g.address_flag % 4096 +
            (read_calls (main_after_parse P env g).events).length * s then
          [g.count_flag - ((read_calls (main_after_parse P env g).events).length : Int)]
         else []) ∧
      (((read_calls (main_after_parse P env g).events).length : Int) < g.count_flag →
        border_warnings (main_after_parse P env g).events =
          [g.count_flag - ((read_calls (main_after_parse P env g).events).length : Int)]) := by
  have hobs := loop_events_observed (read_loop P env.mem b g.count_flag.toNat g)
    ([.open_dev true, .mmap (physical_base g.address_flag) (some b)] ++
      (if g.verbose_flag then [.stdout_map_base b] else []))
    [.munmap true, .close]
    (by cases g.verbose_flag <;> simp [read_calls, border_warnings])
    (by simp [read_calls, border_warnings])
  have hcount : ((g.count_flag.toNat : Nat) : Int) = g.count_flag :=
    Int.toNat_of_nonneg (by omega)
  have hlen := read_loop_length P env.mem b s hs g.count_flag.toNat g hg ha
  have hedge : reads_expected g.count_flag.toNat (g.address_flag % 4096) s < g.count_flag.toNat →
      4096 ≤ g.address_flag % 4096 +
        reads_expected g.count_flag.toNat (g.address_flag % 4096) s * s := by
    unfold reads_expected
    rcases hs with rfl | rfl | rfl | rfl <;> omega
  rw [main_after_parse_read P env g b ho hm hu hr hw]
  dsimp only
  rw [hobs.1, hobs.2, hlen, read_loop_spec P env.mem b s hs g.count_flag.toNat g hg ha]
  dsimp only
  rw [hcount]
  refine ⟨rfl, ?_, ?_⟩
  · split <;> rfl
  · intro hlt
    rw [if_pos (hedge (by omega))]
    rfl

/-- Worked instance: 4 elements of size 4 requested at `0xFF8`, of which
2 are read. -/
theorem border_warning_rule_witness :
    border_warnings (main_after_parse ⟨false, false⟩ ⟨true, some 0x7000, true, fun _ => 0⟩
        ⟨true, 4, 4, 0xFF8, false, 0, false⟩).events = [2] ∧
      ((main_after_parse ⟨false, false⟩ ⟨true, some 0x7000, true, fun _ => 0⟩
          ⟨true, 4, 4, 0xFF8, false, 0, false⟩).status = .exited 0 ∧
        border_warnings (main_after_parse ⟨false, false⟩ ⟨true, some 0x7000, true, fun _ => 0⟩
            ⟨true, 4, 4, 0xFF8, false, 0, false⟩).events =
          (if 4096 ≤ 0xFF8 % 4096 +
              (read_calls (main_after_parse ⟨false, false⟩
                ⟨true, some 0x7000, true, fun _ => 0⟩
                ⟨true, 4, 4, 0xFF8, false, 0, false⟩).events).length * 4 then
            [(4 : Int) - ((read_calls (main_after_parse ⟨false, false⟩
                ⟨true, some 0x7000, true, fun _ => 0⟩
                ⟨true, 4, 4, 0xFF8, false, 0, false⟩).events).length : Int)]
           else []) ∧
        (((read_calls (main_after_parse ⟨false, false⟩ ⟨true, some 0x7000, true, fun _ => 0⟩
              ⟨true, 4, 4, 0xFF8, false, 0, false⟩).events).length : Int) < 4 →
          border_warnings (main_after_parse ⟨false, false⟩
              ⟨true, some 0x7000, true, fun _ => 0⟩
              ⟨true, 4, 4, 0xFF8, false, 0, false⟩).events =
            [(4 : Int) - ((read_calls (main_after_parse ⟨false, false⟩
                ⟨true, some 0x7000, true, fun _ => 0⟩
                ⟨true, 4, 4, 0xFF8, false, 0, false⟩).events).length : Int)])) :=
  ⟨by decide,
    border_warning_rule ⟨false, false⟩ ⟨true, some 0x7000, true, fun _ => 0⟩
      ⟨true, 4, 4, 0xFF8, false, 0, false⟩ 0x7000 4 rfl rfl rfl rfl rfl (by decide) rfl
      (by decide) (by decide)⟩

/-! ## Addresses and offsets of the lines read -/

/-- The line printed by `read_single` when the global `size_flag` is 1, 2, 4 or 8. -/
theorem read_single_line (P : Platform) (g : Flags) (m : Memory) (b a : Nat) (sz : Int)
    (s : Nat) (hs : s = 1 ∨ s = 2 ∨ s = 4 ∨ s = 8) (hg : g.size_flag = (s : Int)) :
    (read_single P g m b a sz).line =
      some ⟨a, load_uint P m (read_single P g m b a sz).virt_addr s % 2 ^ (8 * s), 2 * s⟩ := by
  rcases hs with rfl | rfl | rfl | rfl <;> simp [read_single, hg]

/-- C8, as stated, fails in a build with `FORCE_STRICT_ALIGNMENT`: at address `0x1001` with
the default size 4 and count 1, the value is loaded from the start of the window mapped at
`0x7000`, while the window offset `a - physical_base a` is 1. -/
theorem strict_alignment_moves_offset :
    (read_calls (main ⟨true, false⟩ ⟨true, some 0x7000, true, fun _ => 0⟩
        ⟨[], some 0x1001⟩).events).map ReadCall.virt_addr = [0x7000] ∧
      0x7000 + (0x1001 - physical_base 0x1001) = 0x7001 := by
  decide

/-- The calls of `read_single` of a read-mode run whose window is mapped at `b`: those of
the read loop, or none when the run ends before the loop. -/
theorem read_calls_of_run (P : Platform) (env : Env) (g : Flags) (b : Nat)
    (hm : env.mmap_result = some b) (hr : g.read_flag = true) :
    read_calls (main_after_parse P env g).events = [] ∨
      read_calls (main_after_parse P env g).events
        = (read_loop P env.mem b g.count_flag.toNat g).reads := by
  have hpre : read_calls ([.open_dev true, .mmap (physical_base g.address_flag) (some b)] ++
        (if g.verbose_flag then [.stdout_map_base b] else [])) = [] ∧
      border_warnings ([.open_dev true, .mmap (physical_base g.address_flag) (some b)] ++
        (if g.verbose_flag then [.stdout_map_base b] else [])) = [] := by
    cases g.verbose_flag <;> simp [read_calls, border_warnings]
  cases ho : env.open_ok
  · left
    simp [main_after_parse, ho, read_calls]
  · cases hmw : (g.write_flag && decide (g.count_flag > 1))
    · right
      cases hu : env.munmap_ok
      · have hobs := loop_events_observed (read_loop P env.mem b g.count_flag.toNat g)
          ([.open_dev true, .mmap (physical_base g.address_flag) (some b)] ++
            (if g.verbose_flag then [.stdout_map_base b] else []))
          [.munmap false, .stderr .munmap_failed] hpre
          (by simp [read_calls, border_warnings])
        have he : (main_after_parse P env g).events =
            ([.open_dev true, .mmap (physical_base g.address_flag) (some b)] ++
              (if g.verbose_flag then [.stdout_map_base b] else [])) ++
            (read_loop P env.mem b g.count_flag.toNat g).events ++
            [.munmap false, .stderr .munmap_failed] := by
          simp [main_after_parse, access_events, ho, hmw, hm, hu, hr]
        rw [he]
        exact hobs.1
      · have hobs := loop_events_observed (read_loop P env.mem b g.count_flag.toNat g)
          ([.open_dev true, .mmap (physical_base g.address_flag) (some b)] ++
            (if g.verbose_flag then [.stdout_map_base b] else []))
          [.munmap true, .close] hpre
          (by simp [read_calls, border_warnings])
        have he : (main_after_parse P env g).events =
            ([.open_dev true, .mmap (physical_base g.address_flag) (some b)] ++
              (if g.verbose_flag then [.stdout_map_base b] else [])) ++
            (read_loop P env.mem b g.count_flag.toNat g).events ++
            [.munmap true, .close] := by
          simp [main_after_parse, access_events, ho, hmw, hm, hu, hr]
        rw [he]
        exact hobs.1
    · left
      simp [main_after_parse, ho, hmw, read_calls]

/-- C8, amended: in every read-mode run with size `s` in 1, 2, 4, 8, whatever the results of
`open` and `munmap`, with `b` the base of the mapped window, the `i`-th call of
`read_single` prints the address `a + i * s`, so the addresses are strictly ascending;
`a + i * s` lies in the page of `a`, at the window offset `a + i * s - physical_base a`,
which is below the window size (no wrap-around); the value printed is loaded at the
pointer `fixup_addr` makes from that offset. Without `FORCE_STRICT_ALIGNMENT` that pointer
is `b` plus the offset itself. With `FORCE_STRICT_ALIGNMENT` it is the pointer rounded down
to a multiple of `s`, which for a page-aligned `b` is `b` plus the offset rounded down to a
multiple of `s`. -/
theorem read_lines_ascending (P : Platform) (env : Env) (g : Flags) (b s : Nat)
    (hm : env.mmap_result = some b) (hr : g.read_flag = true)
    (hs : s = 1 ∨ s = 2 ∨ s = 4 ∨ s = 8) (hg : g.size_flag = (s : Int))
    (ha : g.address_flag < 2 ^ 64) :
    (∀ i r, (read_calls (main_after_parse P env g).events)[i]? = some r →
      r.line = some ⟨g.address_flag + i * s,
        load_uint P env.mem r.virt_addr s % 2 ^ (8 * s), 2 * s⟩ ∧
      r.virt_addr = fixup_addr P
        (b + (g.address_flag + i * s - physical_base g.address_flag)) (toULong (s : Int)) ∧
      (P.strict_alignment = false →
        r.virt_addr = b + (g.address_flag + i * s - physical_base g.address_flag)) ∧
      (P.strict_alignment = true → b + 4096 ≤ 2 ^ 64 →
        r.virt_addr =
          s * ((b + (g.address_flag + i * s - physical_base g.address_flag)) / s) ∧
        (b % 4096 = 0 →
          r.virt_addr =
            b + s * ((g.address_flag + i * s - physical_base g.address_flag) / s))) ∧
      physical_base (g.address_flag + i * s) = physical_base g.address_flag ∧
      g.address_flag + i * s - physical_base g.address_flag < MAP_SIZE) ∧
    (∀ i j ri rj, i < j →
      (read_calls (main_after_parse P env g).events)[i]? = some ri →
      (read_calls (main_after_parse P env g).events)[j]? = some rj →
      ri.line.map Line.address = some (g.address_flag + i * s) ∧
      rj.line.map Line.address = some (g.address_flag + j * s) ∧
      g.address_flag + i * s < g.address_flag + j * s) := by
  have hget : ∀ i r, (read_calls (main_after_parse P env g).events)[i]? = some r →
      i < (4096 - g.address_flag % 4096 + (s - 1)) / s ∧
        r = read_single P g env.mem b (g.address_flag + i * s) g.size_flag := by
    intro i r hi
    rcases read_calls_of_run P env g b hm hr with h | h
    · rw [h] at hi
      simp at hi
    · rw [h, read_loop_spec P env.mem b s hs g.count_flag.toNat g hg ha] at hi
      dsimp only at hi
      rw [List.getElem?_map] at hi
      by_cases hlt : i < reads_expected g.count_flag.toNat (g.address_flag % 4096) s
      · rw [List.getElem?_range hlt] at hi
        simp only [Option.map_some', Option.some.injEq] at hi
        exact ⟨lt_of_lt_of_le hlt (Nat.min_le_right _ _), hi.symm⟩
      · rw [List.getElem?_eq_none (by simpa using hlt)] at hi
        simp at hi
  have hpos : 1 ≤ s := by omega
  constructor
  · intro i r hi
    obtain ⟨hlt, rfl⟩ := hget i r hi
    have hoff : g.address_flag % 4096 + i * s < 4096 := by
      rcases hs with rfl | rfl | rfl | rfl <;> omega
    have hlt64 : g.address_flag + i * s < 2 ^ 64 := by omega
    have hbase : physical_base (g.address_flag + i * s) = physical_base g.address_flag := by
      rw [physical_base_eq _ hlt64, physical_base_eq _ ha]
      omega
    have hsub : g.address_flag + i * s - physical_base g.address_flag
        = (g.address_flag + i * s) % 4096 := by
      rw [physical_base_eq _ ha]
      omega
    have hsmall : g.address_flag + i * s - physical_base g.address_flag < 4096 := by
      rw [hsub]
      omega
    have hvirt : (read_single P g env.mem b (g.address_flag + i * s) g.size_flag).virt_addr
        = fixup_addr P (b + (g.address_flag + i * s - physical_base g.address_flag))
            (toULong (s : Int)) := by
      rw [read_single_virt_addr, hsub, hg]
    refine ⟨read_single_line P g env.mem b _ _ s hs hg, hvirt, ?_, ?_, hbase, hsmall⟩
    · intro hP
      rw [hvirt]
      simp [fixup_addr, hP]
    · intro hP hb
      have hround := fixup_addr_strict P hP
        (b + (g.address_flag + i * s - physical_base g.address_flag)) s hs (by omega)
      rw [hvirt, hround]
      refine ⟨rfl, ?_⟩
      intro hal
      rcases hs with rfl | rfl | rfl | rfl <;> omega
  · intro i j ri rj hij hi hj
    obtain ⟨_, rfl⟩ := hget i ri hi
    obtain ⟨_, rfl⟩ := hget j rj hj
    rw [read_single_line P g env.mem b _ _ s hs hg, read_single_line P g env.mem b _ _ s hs hg]
    refine ⟨rfl, rfl, ?_⟩
    have := Nat.mul_lt_mul_of_pos_right hij hpos
    omega

/-- Worked instance in a build with `FORCE_STRICT_ALIGNMENT`, in a run whose `munmap`
fails: 3 elements of size 2 requested at `0x2345`; the second line carries `0x2347` and its
value is loaded at `0x7346`, the pointer `0x7347` rounded down to a multiple of 2. -/
theorem read_lines_ascending_witness :
    (read_calls (main_after_parse ⟨true, false⟩ ⟨true, some 0x7000, false, fun _ => 0⟩
        ⟨true, 3, 2, 0x2345, false, 0, false⟩).events)[1]? =
      some ⟨0x7346, none, 2, some ⟨0x2347, 0, 4⟩⟩ ∧
    ((⟨0x7346, none, 2, some ⟨0x2347, 0, 4⟩⟩ : ReadCall).line =
        some ⟨0x2345 + 1 * 2, load_uint ⟨true, false⟩ (fun _ => 0) 0x7346 2 % 2 ^ (8 * 2),
          2 * 2⟩ ∧
      0x7346 = fixup_addr ⟨true, false⟩ (0x7000 + (0x2345 + 1 * 2 - physical_base 0x2345))
        (toULong ((2 : Nat) : Int)) ∧
      ((true : Bool) = false → 0x7346 = 0x7000 + (0x2345 + 1 * 2 - physical_base 0x2345)) ∧
      ((true : Bool) = true → 0x7000 + 4096 ≤ 2 ^ 64 →
        0x7346 = 2 * ((0x7000 + (0x2345 + 1 * 2 - physical_base 0x2345)) / 2) ∧
        (0x7000 % 4096 = 0 →
          0x7346 = 0x7000 + 2 * ((0x2345 + 1 * 2 - physical_base 0x2345) / 2))) ∧
      physical_base (0x2345 + 1 * 2) = physical_base 0x2345 ∧
      0x2345 + 1 * 2 - physical_base 0x2345 < MAP_SIZE) :=
  ⟨by decide,
    (read_lines_ascending ⟨true, false⟩ ⟨true, some 0x7000, false, fun _ => 0⟩
      ⟨true, 3, 2, 0x2345, false, 0, false⟩ 0x7000 2 rfl rfl (by decide) rfl
      (by decide)).1 1 ⟨0x7346, none, 2, some ⟨0x2347, 0, 4⟩⟩ (by decide)⟩

/-! ## Release of the window and of the device handle -/

/-- The accesses of `main` hold no system call. -/
theorem access_events_no_syscall (P : Platform) (m : Memory) (b : Nat) (g : Flags) :
    Event.close ∉ access_events P m b g ∧
      (∀ ok, Event.munmap ok ∉ access_events P m b g) ∧
      (∀ off res, Event.mmap off res ∉ access_events P m b g) := by
  refine ⟨?_, ?_, ?_⟩
  · intro h
    rcases access_events_kind P m b g _ h with ⟨_, h⟩ | ⟨_, h⟩ | ⟨_, h⟩ <;> cases h
  · intro ok h
    rcases access_events_kind P m b g _ h with ⟨_, h⟩ | ⟨_, h⟩ | ⟨_, h⟩ <;> cases h
  · intro off res h
    rcases access_events_kind P m b g _ h with ⟨_, h⟩ | ⟨_, h⟩ | ⟨_, h⟩ <;> cases h

/-- C9, as stated, fails: when `mmap` fails after a successful `open`, and likewise when
`munmap` fails, the run ends with exit status 1 and without a `close` of the device
handle. -/
theorem error_exit_without_close :
    (Event.open_dev true ∈ (main ⟨false, false⟩ ⟨true, none, true, fun _ => 0⟩
        ⟨[], some 0x1000⟩).events ∧
      Event.close ∉ (main ⟨false, false⟩ ⟨true, none, true, fun _ => 0⟩
        ⟨[], some 0x1000⟩).events ∧
      (main ⟨false, false⟩ ⟨true, none, true, fun _ => 0⟩
        ⟨[], some 0x1000⟩).status = .exited 1) ∧
    (Event.open_dev true ∈ (main ⟨false, false⟩ ⟨true, some 0x7000, false, fun _ => 0⟩
        ⟨[], some 0x1000⟩).events ∧
      Event.close ∉ (main ⟨false, false⟩ ⟨true, some 0x7000, false, fun _ => 0⟩
        ⟨[], some 0x1000⟩).events ∧
      (main ⟨false, false⟩ ⟨true, some 0x7000, false, fun _ => 0⟩
        ⟨[], some 0x1000⟩).status = .exited 1) := by
  decide

/-- C9, amended: in a run in which `open` succeeds, the device handle is closed exactly
when the run completes with exit status 0, and then the window has been unmapped before;
on every path that follows a successful `mmap`, `munmap` is called on the window; the error
exits (rejection of multiple writes, failure of `mmap`, failure of `munmap`) end the process
with `exit(1)` without closing the handle. -/
theorem release_on_completion (P : Platform) (env : Env) (g : Flags)
    (ho : env.open_ok = true) :
    (Event.close ∈ (main_after_parse P env g).events ↔
        (main_after_parse P env g).status = .exited 0) ∧
      ((main_after_parse P env g).status = .exited 0 →
        ∃ pre, (main_after_parse P env g).events = pre ++ [.munmap true, .close]) ∧
      (∀ off b, Event.mmap off (some b) ∈ (main_after_parse P env g).events →
        Event.munmap env.munmap_ok ∈ (main_after_parse P env g).events) ∧
      ((main_after_parse P env g).status ≠ .exited 0 →
        (main_after_parse P env g).status = .exited 1 ∧
          Event.close ∉ (main_after_parse P env g).events) := by
  have h1 := fun b => (access_events_no_syscall P env.mem b g).1
  have h2 := fun b => (access_events_no_syscall P env.mem b g).2.1
  have h3 := fun b => (access_events_no_syscall P env.mem b g).2.2
  cases hmw : (g.write_flag && decide (g.count_flag > 1))
  · cases hm : env.mmap_result with
    | none => simp [main_after_parse, ho, hmw, hm]
    | some b =>
      cases hu : env.munmap_ok <;> cases hv : g.verbose_flag <;>
        simp [main_after_parse, ho, hmw, hm, hu, hv, h1, h2, h3]
      · exact ⟨.open_dev true :: .mmap (physical_base g.address_flag) (some b) ::
          access_events P env.mem b g, by simp⟩
      · exact ⟨.open_dev true :: .mmap (physical_base g.address_flag) (some b) ::
          .stdout_map_base b :: access_events P env.mem b g, by simp⟩
  · simp [main_after_parse, ho, hmw]

/-- Worked instance: a read of one element at `0x1000` that completes. -/
theorem release_on_completion_witness :
    (main_after_parse ⟨false, false⟩ ⟨true, some 0x7000, true, fun _ => 0⟩
        ⟨true, 1, 4, 0x1000, false, 0, false⟩).status = .exited 0 ∧
      (Event.close ∈ (main_after_parse ⟨false, false⟩ ⟨true, some 0x7000, true, fun _ => 0⟩
          ⟨true, 1, 4, 0x1000, false, 0, false⟩).events ↔
        (main_after_parse ⟨false, false⟩ ⟨true, some 0x7000, true, fun _ => 0⟩
          ⟨true, 1, 4, 0x1000, false, 0, false⟩).status = .exited 0) :=
  ⟨by decide,
    (release_on_completion ⟨false, false⟩ ⟨true, some 0x7000, true, fun _ => 0⟩
      ⟨true, 1, 4, 0x1000, false, 0, false⟩ rfl).1⟩

end Devmem2
